import Mathlib

/-!
Verification of the grade-calculator pipeline (src/grade_calculator.py).

The Python program is shallowly embedded: dictionaries with possibly missing
keys become structures with `Option` fields, floating-point percentages become
exact rationals, and code that raises an exception (division by zero on an
empty collection) returns `Option`.  Definitions follow the source functions
line by line; theorems settle the specification claims.
-/

/-- A student record as read from the JSON roster.  Each of the three fields
the validator looks up may be absent from the dictionary. -/
structure Student where
  student_id : Option String
  student_name : Option String
  answers : Option (List String)
deriving DecidableEq, Repr

/-- The `exam_info` block of the input file. -/
structure ExamInfo where
  exam_name : String
  date : String
  total_questions : Nat
deriving DecidableEq, Repr

/-- The parsed input file: `exam_info`, `answer_key`, `students`.
`load_exam_data` performs file I/O and JSON parsing; the pipeline after it is
pure, so the embedding takes the parsed data as a value. -/
structure ExamData where
  exam_info : ExamInfo
  answer_key : List String
  students : List Student
deriving DecidableEq, Repr

/-- The per-student grade dictionary stored in `grades_data`. -/
structure GradeResult where
  student_name : String
  percentage : ℚ
  letter_grade : String
  correct_count : Nat
deriving DecidableEq, Repr

/-- The summary-statistics dictionary built by `generate_summary_stats`.
`grade_distribution` keeps the insertion order A, B, C, D, F of the Python
dict as an association list. -/
structure SummaryStats where
  class_average : ℚ
  highest_score : ℚ
  lowest_score : ℚ
  grade_distribution : List (String × Nat)
deriving DecidableEq, Repr

/-- The set `valid_answers` = {A, B, C, D} from `validate_student_data`. -/
def validAnswers : List String := ["A", "B", "C", "D"]

/-- The answer-format loop (for i, answer in enumerate of the answers) of
`validate_student_data`: the first answer outside `validAnswers` produces the
failure message with its 1-based question number; `i` carries the 0-based
index of the head of the remaining list. -/
def checkAnswerFormat (answers : List String) (i : Nat) : Bool × String :=
  match answers with
  | [] => (true, "")
  | a :: rest =>
    if a ∈ validAnswers then
      checkAnswerFormat rest (i + 1)
    else
      (false, "Invalid answer \x27" ++ (a ++ ("\x27 at question " ++ toString (i + 1))))

/-- Embedding of `validate_student_data`: required fields checked
in order `student_id`, `student_name`, `answers`; then the answer count; then
the answer alphabet. -/
def validate_student_data (student : Student) (total_questions : Nat) : Bool × String :=
  match student.student_id with
  | none => (false, "Missing required field: student_id")
  | some _ =>
    match student.student_name with
    | none => (false, "Missing required field: student_name")
    | some _ =>
      match student.answers with
      | none => (false, "Missing required field: answers")
      | some answers =>
        if answers.length ≠ total_questions then
          (false, "Expected " ++ (toString total_questions ++ (" answers, got " ++ toString answers.length)))
        else
          checkAnswerFormat answers 0

/-- The letter-grade threshold chain of `calculate_grade`. -/
def letterGradeOf (percentage : ℚ) : String :=
  if percentage ≥ 90 then "A"
  else if percentage ≥ 80 then "B"
  else if percentage ≥ 70 then "C"
  else if percentage ≥ 60 then "D"
  else "F"

/-- Embedding of `calculate_grade`: counts positional matches
over `zip(student_answers, answer_key)`, divides by `len(answer_key)` (exact
rational division standing for Python float division; Python raises
`ZeroDivisionError` on an empty key, the claims assume it non-empty), and
applies the threshold chain. -/
def calculate_grade (student_answers answer_key : List String) : Nat × ℚ × String :=
  let correct_count := (List.zip student_answers answer_key).countP (fun p => p.1 == p.2)
  let percentage : ℚ := ((correct_count : ℚ) / (answer_key.length : ℚ)) * 100
  (correct_count, percentage, letterGradeOf percentage)

/-- Embedding of `generate_summary_stats`.  On the empty list the Python code
raises `ZeroDivisionError` at `sum(percentages) / len(percentages)` (and
`max`/`min` would raise `ValueError`); the embedding returns `none` there.
On a non-empty list, `max`/`min` of a Python list are folds of the binary
`max`/`min` over the tail starting from the head. -/
def generate_summary_stats (grades_data : List GradeResult) : Option SummaryStats :=
  match grades_data with
  | [] => none
  | g :: gs =>
    let tailPercentages := gs.map (fun x => x.percentage)
    let percentages := g.percentage :: tailPercentages
    let letter_grades := (g :: gs).map (fun x => x.letter_grade)
    some
      { class_average := percentages.sum / (percentages.length : ℚ)
        highest_score := tailPercentages.foldl max g.percentage
        lowest_score := tailPercentages.foldl min g.percentage
        grade_distribution :=
          ["A", "B", "C", "D", "F"].map (fun gr => (gr, letter_grades.count gr)) }

/-- String repetition of Python: a string of `n` copies of one character. -/
def repChar (n : Nat) (c : Char) : String :=
  String.mk (List.replicate n c)

/-- Renders a percentage with one digit after the decimal point, the shape of
the one-decimal float format of Python (the claims do not depend on the
rounding direction). -/
def fmt1 (q : ℚ) : String :=
  let s : ℚ := q * 10
  let t : Int := s.num / (s.den : Int)
  toString (t / 10) ++ ("." ++ toString ((t % 10).natAbs))

/-- The roster limit of `process_grades` — Python
truthiness: `None` and `0` leave the roster whole, any other limit truncates. -/
def applyLimit (limit : Option Nat) (students : List Student) : List Student :=
  match limit with
  | none => students
  | some n => if n = 0 then students else students.take n

/-- The roster actually iterated by `process_grades` after the limit. -/
def studentsToProcess (data : ExamData) (limit : Option Nat) : List Student :=
  applyLimit limit data.students

/-- The header block of the report. -/
def headerLines (info : ExamInfo) : List String :=
  [repChar 60 '=',
   "EXAM RESULTS: " ++ info.exam_name,
   "Date: " ++ info.date,
   "Total Questions: " ++ toString info.total_questions,
   repChar 60 '=',
   ""]

/-- The warning emoji prefix of the per-student error line, with the exact
characters of the source file. -/
def warnHead : String := "âš ï¸  ERROR processing "

/-- The notice printed when no student record passed validation. -/
def noValidDataLine : String := "âš ï¸  No valid student data was processed."

/-- The first line of the class-summary block (the source embeds the leading
newline in the appended string). -/
def summaryHeaderLine : String := "\nCLASS SUMMARY STATISTICS"

/-- One iteration of the student loop of `process_grades`: the report lines it
appends and the `grades_data` entry it stores (none for an invalid record). -/
def processStudent (answer_key : List String) (total_questions : Nat) (s : Student) :
    List String × Option GradeResult :=
  let v := validate_student_data s total_questions
  if v.1 then
    let answers := s.answers.getD []
    let r := calculate_grade answers answer_key
    let gr : GradeResult :=
      { student_name := s.student_name.getD ""
        percentage := r.2.1
        letter_grade := r.2.2
        correct_count := r.1 }
    (["Student: " ++ (s.student_name.getD "" ++ (" (ID: " ++ (s.student_id.getD "" ++ ")"))),
      "Score: " ++ (toString r.1 ++ ("/" ++ (toString total_questions ++ (" (" ++ (fmt1 r.2.1 ++ "%)"))))),
      "Grade: " ++ r.2.2,
      repChar 40 '-'], some gr)
  else
    ([warnHead ++ (s.student_name.getD "Unknown" ++ (": " ++ v.2))], none)

/-- The whole student loop: concatenated report lines and accumulated
`grades_data`, in roster order. -/
def processStudents (answer_key : List String) (total_questions : Nat) :
    List Student → List String × List GradeResult
  | [] => ([], [])
  | s :: rest =>
    let p := processStudent answer_key total_questions s
    let pr := processStudents answer_key total_questions rest
    (p.1 ++ pr.1, p.2.toList ++ pr.2)

/-- The class-summary block appended when `grades_data` is non-empty:
`processed_count`, average, extremes, and the non-zero entries of the grade
distribution. -/
def summaryLines (processed_count : Nat) (stats : SummaryStats) : List String :=
  [summaryHeaderLine,
   repChar 30 '=',
   "Students Processed: " ++ toString processed_count,
   "Class Average: " ++ (fmt1 stats.class_average ++ "%"),
   "Highest Score: " ++ (fmt1 stats.highest_score ++ "%"),
   "Lowest Score: " ++ (fmt1 stats.lowest_score ++ "%"),
   "",
   "Grade Distribution:"]
  ++ ((stats.grade_distribution.filter (fun p => p.2 > 0)).map
        (fun p => "  " ++ (p.1 ++ (": " ++ (toString p.2 ++ " student(s)")))))

/-- All `output_lines` of `process_grades`: header, per-student blocks, then
either the summary block (when some record was graded) or the no-valid-data
notice. -/
def report_lines (data : ExamData) (limit : Option Nat) : List String :=
  let students := studentsToProcess data limit
  let tq := data.exam_info.total_questions
  let pr := processStudents data.answer_key tq students
  headerLines data.exam_info ++ pr.1 ++
    (match generate_summary_stats pr.2 with
     | some stats => summaryLines pr.2.length stats
     | none => [noValidDataLine])

/-- `process_grades(limit_students)` restricted to its pure part: the loaded
data is a parameter; the result is `"\n".join(output_lines)`. -/
def process_grades (data : ExamData) (limit_students : Option Nat) : String :=
  String.intercalate "\n" (report_lines data limit_students)

/-- The report computed by `main()`: it always calls
`process_grades(limit_students=3)`. -/
def main_report (data : ExamData) : String :=
  process_grades data (some 3)

/-- The number of positions, below both lengths, where the two answer lists
agree — the specification reading of the match count. -/
def matchCount (sa ak : List String) : Nat :=
  (List.range (min sa.length ak.length)).countP
    (fun i => sa.getD i "?" == ak.getD i "!")

/-! ## Helper lemmas -/

lemma calculate_grade_fst (sa ak : List String) :
    (calculate_grade sa ak).1 = (List.zip sa ak).countP (fun p => p.1 == p.2) := rfl

lemma zip_countP_eq_matchCount (sa ak : List String) :
    (List.zip sa ak).countP (fun p => p.1 == p.2) = matchCount sa ak := by
  induction sa generalizing ak with
  | nil => simp [matchCount]
  | cons a as ih =>
    cases ak with
    | nil => simp [matchCount]
    | cons b bs =>
      simp only [matchCount, List.zip_cons_cons, List.countP_cons, List.length_cons,
        Nat.succ_min_succ, List.range_succ_eq_map, List.countP_map]
      have hcongr :
          (List.range (min as.length bs.length)).countP
              ((fun i => (a :: as).getD i "?" == (b :: bs).getD i "!") ∘ Nat.succ) =
            (List.range (min as.length bs.length)).countP
              (fun i => as.getD i "?" == bs.getD i "!") := by
        apply List.countP_congr
        intro x _
        simp [Function.comp, List.getD_cons_succ]
      rw [hcongr, ih bs]
      simp [matchCount]

/-! ## Theorems for the claims -/

/-- C6: on an empty collection of grade results, `generate_summary_stats`
fails (the Python code divides by `len(percentages) = 0`) instead of
returning statistics. -/
theorem generate_summary_stats_empty : generate_summary_stats [] = none := rfl

/-- C9: a `limit_students` of `0` is falsy in Python, so the roster is not
truncated and the run behaves exactly like `limit_students=None`. -/
theorem process_grades_zero_limit (data : ExamData) :
    process_grades data (some 0) = process_grades data none := rfl

/-- C5: invoking the program with no arguments computes the report with the
hardcoded limit 3, which truncates the roster to its first 3 students before
validation and scoring: the result coincides with running the unlimited
pipeline on the truncated roster. -/
theorem main_report_first_three (data : ExamData) :
    main_report data = process_grades { data with students := data.students.take 3 } none ∧
    studentsToProcess data (some 3) = data.students.take 3 :=
  ⟨rfl, rfl⟩

/-- C1: on `[0, 100]` the threshold chain of `calculate_grade` assigns exactly
one letter grade, with each boundary going to the higher band: `A` iff
`90 ≤ p`, `B` iff `80 ≤ p < 90`, `C` iff `70 ≤ p < 80`, `D` iff
`60 ≤ p < 70`, `F` iff `p < 60`. -/
theorem letter_grade_banding (p : ℚ) (h0 : 0 ≤ p) (h1 : p ≤ 100) :
    letterGradeOf p ∈ ["A", "B", "C", "D", "F"] ∧
    (letterGradeOf p = "A" ↔ 90 ≤ p) ∧
    (letterGradeOf p = "B" ↔ 80 ≤ p ∧ p < 90) ∧
    (letterGradeOf p = "C" ↔ 70 ≤ p ∧ p < 80) ∧
    (letterGradeOf p = "D" ↔ 60 ≤ p ∧ p < 70) ∧
    (letterGradeOf p = "F" ↔ p < 60) := by
  unfold letterGradeOf
  split_ifs with h90 h80 h70 h60 <;>
    refine ⟨by decide, ?_, ?_, ?_, ?_, ?_⟩ <;>
    constructor <;>
    intro h <;>
    first
      | rfl
      | (exact absurd h (by decide))
      | linarith
      | (exact ⟨by linarith, by linarith⟩)
      | (rcases h with ⟨ha, hb⟩; linarith)

/-- Witness for C1 at the boundary percentage 90. -/
theorem letter_grade_banding_witness :
    (0 : ℚ) ≤ 90 ∧ (90 : ℚ) ≤ 100 ∧
    (letterGradeOf 90 ∈ ["A", "B", "C", "D", "F"] ∧
     (letterGradeOf 90 = "A" ↔ (90 : ℚ) ≤ 90) ∧
     (letterGradeOf 90 = "B" ↔ (80 : ℚ) ≤ 90 ∧ (90 : ℚ) < 90) ∧
     (letterGradeOf 90 = "C" ↔ (70 : ℚ) ≤ 90 ∧ (90 : ℚ) < 80) ∧
     (letterGradeOf 90 = "D" ↔ (60 : ℚ) ≤ 90 ∧ (90 : ℚ) < 70) ∧
     (letterGradeOf 90 = "F" ↔ (90 : ℚ) < 60)) :=
  ⟨by norm_num, by norm_num, letter_grade_banding 90 (by norm_num) (by norm_num)⟩

/-- C2: on equal-length lists with a non-empty key, `correct_count` is the
number of positions where the two lists agree, and the percentage is that
count divided by the key length, times 100, with exact (non-truncating)
division. -/
theorem calculate_grade_count_and_percentage (sa ak : List String)
    (hne : ak ≠ []) (hlen : sa.length = ak.length) :
    (calculate_grade sa ak).1 =
      (List.range ak.length).countP (fun i => sa.getD i "?" == ak.getD i "!") ∧
    (calculate_grade sa ak).2.1 =
      ((calculate_grade sa ak).1 : ℚ) / (ak.length : ℚ) * 100 := by
  constructor
  · rw [calculate_grade_fst, zip_countP_eq_matchCount, matchCount, hlen, min_self]
  · rfl

/-- Witness for C2: Scenario 1 of the spec, a perfect score on a 4-question key. -/
theorem calculate_grade_count_and_percentage_witness :
    (["A", "B", "C", "D"] : List String) ≠ [] ∧
    (["A", "B", "C", "D"] : List String).length = (["A", "B", "C", "D"] : List String).length ∧
    ((calculate_grade ["A", "B", "C", "D"] ["A", "B", "C", "D"]).1 =
      (List.range (["A", "B", "C", "D"] : List String).length).countP
        (fun i => (["A", "B", "C", "D"] : List String).getD i "?" ==
          (["A", "B", "C", "D"] : List String).getD i "!") ∧
     (calculate_grade ["A", "B", "C", "D"] ["A", "B", "C", "D"]).2.1 =
      ((calculate_grade ["A", "B", "C", "D"] ["A", "B", "C", "D"]).1 : ℚ) /
        ((["A", "B", "C", "D"] : List String).length : ℚ) * 100) :=
  ⟨by decide, rfl,
   calculate_grade_count_and_percentage ["A", "B", "C", "D"] ["A", "B", "C", "D"]
     (by decide) rfl⟩

/-- C10: with a non-empty key, `calculate_grade` is total even on lists of
different lengths: `zip` truncates to the shorter list, so the match count
ranges over positions below both lengths, is bounded by the shorter length,
and the percentage still divides by the key length. -/
theorem calculate_grade_length_mismatch_safe (sa ak : List String) (hne : ak ≠ []) :
    (calculate_grade sa ak).1 = matchCount sa ak ∧
    (calculate_grade sa ak).1 ≤ min sa.length ak.length ∧
    (calculate_grade sa ak).2.1 =
      ((calculate_grade sa ak).1 : ℚ) / (ak.length : ℚ) * 100 := by
  refine ⟨?_, ?_, rfl⟩
  · rw [calculate_grade_fst, zip_countP_eq_matchCount]
  · rw [calculate_grade_fst, zip_countP_eq_matchCount]
    calc matchCount sa ak ≤ (List.range (min sa.length ak.length)).length :=
          List.countP_le_length _
      _ = min sa.length ak.length := List.length_range _

/-- Witness for C10: a one-answer submission against a two-question key. -/
theorem calculate_grade_length_mismatch_safe_witness :
    (["A", "B"] : List String) ≠ [] ∧
    ((calculate_grade ["A"] ["A", "B"]).1 = matchCount ["A"] ["A", "B"] ∧
     (calculate_grade ["A"] ["A", "B"]).1 ≤
       min (["A"] : List String).length (["A", "B"] : List String).length ∧
     (calculate_grade ["A"] ["A", "B"]).2.1 =
       ((calculate_grade ["A"] ["A", "B"]).1 : ℚ) /
         ((["A", "B"] : List String).length : ℚ) * 100) :=
  ⟨by decide, calculate_grade_length_mismatch_safe ["A"] ["A", "B"] (by decide)⟩

lemma checkAnswerFormat_fst_true (answers : List String) :
    ∀ i, (checkAnswerFormat answers i).1 = true ↔ ∀ a ∈ answers, a ∈ validAnswers := by
  induction answers with
  | nil => intro i; simp [checkAnswerFormat]
  | cons a rest ih =>
    intro i
    by_cases h : a ∈ validAnswers
    · simp [checkAnswerFormat, h, ih (i + 1)]
    · simp [checkAnswerFormat, h]

lemma checkAnswerFormat_of_all_valid (answers : List String) :
    ∀ i, (∀ a ∈ answers, a ∈ validAnswers) → checkAnswerFormat answers i = (true, "") := by
  induction answers with
  | nil => intro i _; rfl
  | cons a rest ih =>
    intro i h
    have ha : a ∈ validAnswers := h a (List.mem_cons_self a rest)
    simp only [checkAnswerFormat, if_pos ha]
    exact ih (i + 1) (fun x hx => h x (List.mem_cons_of_mem a hx))

/-- C3: `validate_student_data` fails exactly when a required field is
missing, the answer count differs from `total_questions`, or some answer is
outside {A, B, C, D}; on every other record it returns `(True, "")`. -/
theorem validate_student_data_spec (s : Student) (tq : Nat) :
    ((validate_student_data s tq).1 = false ↔
      (s.student_id = none ∨ s.student_name = none ∨ s.answers = none ∨
       ∃ ans, s.answers = some ans ∧
         (ans.length ≠ tq ∨ ∃ a ∈ ans, a ∉ validAnswers))) ∧
    (¬ (s.student_id = none ∨ s.student_name = none ∨ s.answers = none ∨
        ∃ ans, s.answers = some ans ∧
          (ans.length ≠ tq ∨ ∃ a ∈ ans, a ∉ validAnswers)) →
      validate_student_data s tq = (true, "")) := by
  obtain ⟨sid, sname, sans⟩ := s
  cases sid with
  | none => simp [validate_student_data]
  | some i =>
    cases sname with
    | none => simp [validate_student_data]
    | some n =>
      cases sans with
      | none => simp [validate_student_data]
      | some ans =>
        simp only [validate_student_data, Option.some.injEq, reduceCtorEq,
          false_or, exists_eq_left']
        by_cases hl : ans.length = tq
        · simp only [hl, ne_eq, not_true_eq_false, if_false, false_or]
          constructor
          · rw [← Bool.not_eq_true, checkAnswerFormat_fst_true ans 0]
            push_neg
            exact Iff.rfl
          · intro h
            push_neg at h
            exact checkAnswerFormat_of_all_valid ans 0 h
        · simp [hl]

lemma checkAnswerFormat_cons (a : String) (rest : List String) (i : Nat) :
    checkAnswerFormat (a :: rest) i =
      if a ∈ validAnswers then checkAnswerFormat rest (i + 1)
      else (false, "Invalid answer \x27" ++
        (a ++ ("\x27 at question " ++ toString (i + 1)))) := rfl

lemma checkAnswerFormat_first_bad (bad : String) (rest : List String)
    (hb : bad ∉ validAnswers) :
    ∀ (good : List String), (∀ a ∈ good, a ∈ validAnswers) →
    ∀ i, checkAnswerFormat (good ++ bad :: rest) i =
      (false, "Invalid answer \x27" ++
        (bad ++ ("\x27 at question " ++ toString (i + good.length + 1)))) := by
  intro good
  induction good with
  | nil =>
    intro _ i
    simp [checkAnswerFormat, hb]
  | cons a g ih =>
    intro hg i
    have ha : a ∈ validAnswers := hg a (List.mem_cons_self a g)
    rw [List.cons_append, checkAnswerFormat_cons, if_pos ha,
      ih (fun x hx => hg x (List.mem_cons_of_mem a hx)) (i + 1)]
    have harith : i + 1 + g.length + 1 = i + (a :: g).length + 1 := by
      simp only [List.length_cons]; omega
    rw [harith]

/-- C8: when the answers have the expected length and the first offending
answer sits after a prefix of valid ones, the failure reason names that
answer and its 1-based question number. -/
theorem validate_reports_first_violation (sid sname : String) (good : List String)
    (bad : String) (rest : List String) (tq : Nat)
    (hlen : (good ++ bad :: rest).length = tq)
    (hg : ∀ a ∈ good, a ∈ validAnswers) (hb : bad ∉ validAnswers) :
    validate_student_data ⟨some sid, some sname, some (good ++ bad :: rest)⟩ tq =
      (false, "Invalid answer \x27" ++
        (bad ++ ("\x27 at question " ++ toString (good.length + 1)))) := by
  simp only [validate_student_data, hlen, ne_eq, not_true_eq_false, if_false]
  have h := checkAnswerFormat_first_bad bad rest hb good hg 0
  simpa using h

/-- Witness for C8: a lowercase answer in second position is reported with
its value and 1-based index. -/
theorem validate_reports_first_violation_witness :
    validate_student_data ⟨some "S1", some "Alice", some ["A", "a"]⟩ 2 =
      (false, "Invalid answer \x27a\x27 at question 2") := by
  have h := validate_reports_first_violation "S1" "Alice" ["A"] "a" [] 2
    (by decide) (by decide) (by decide)
  rw [show (["A"] ++ "a" :: [] : List String) = ["A", "a"] from rfl] at h
  rw [h]
  rfl

lemma le_foldl_max (l : List ℚ) : ∀ x : ℚ, x ≤ l.foldl max x := by
  induction l with
  | nil => intro x; exact le_refl x
  | cons b bs ih => intro x; exact le_trans (le_max_left x b) (ih (max x b))

lemma mem_le_foldl_max (l : List ℚ) : ∀ (x a : ℚ), a ∈ l → a ≤ l.foldl max x := by
  induction l with
  | nil => intro x a h; cases h
  | cons b bs ih =>
    intro x a h
    rcases List.mem_cons.mp h with rfl | h2
    · exact le_trans (le_max_right x a) (le_foldl_max bs (max x a))
    · exact ih (max x b) a h2

lemma foldl_min_le (l : List ℚ) : ∀ x : ℚ, l.foldl min x ≤ x := by
  induction l with
  | nil => intro x; exact le_refl x
  | cons b bs ih => intro x; exact le_trans (ih (min x b)) (min_le_left x b)

lemma foldl_min_le_mem (l : List ℚ) : ∀ (x a : ℚ), a ∈ l → l.foldl min x ≤ a := by
  induction l with
  | nil => intro x a h; cases h
  | cons b bs ih =>
    intro x a h
    rcases List.mem_cons.mp h with rfl | h2
    · exact le_trans (foldl_min_le bs (min x a)) (min_le_right x a)
    · exact ih (min x b) a h2

lemma count_grades_sum (l : List String)
    (h : ∀ a ∈ l, a ∈ ["A", "B", "C", "D", "F"]) :
    l.count "A" + l.count "B" + l.count "C" + l.count "D" + l.count "F" = l.length := by
  induction l with
  | nil => rfl
  | cons a as ih =>
    have ha := h a (List.mem_cons_self a as)
    have ih2 := ih (fun b hb => h b (List.mem_cons_of_mem a hb))
    fin_cases ha <;> simp [List.count_cons] <;> omega

/-- C4: on a non-empty list of grade results (whose letter grades come from
the fixed grade set, as every result built by `calculate_grade` does),
`generate_summary_stats` succeeds with `lowest_score ≤ class_average ≤
highest_score`, and the distribution counts over A, B, C, D, F sum to the
number of input records. -/
theorem generate_summary_stats_sound (gd : List GradeResult) (hne : gd ≠ [])
    (hg : ∀ g ∈ gd, g.letter_grade ∈ ["A", "B", "C", "D", "F"]) :
    ∃ stats, generate_summary_stats gd = some stats ∧
      stats.lowest_score ≤ stats.class_average ∧
      stats.class_average ≤ stats.highest_score ∧
      (stats.grade_distribution.map Prod.snd).sum = gd.length := by
  match gd with
  | [] => exact absurd rfl hne
  | g :: gs =>
    refine ⟨_, rfl, ?_, ?_, ?_⟩
    · show (gs.map (fun x : GradeResult => x.percentage)).foldl min g.percentage ≤
        (g.percentage :: gs.map (fun x : GradeResult => x.percentage)).sum /
          ((g.percentage :: gs.map (fun x : GradeResult => x.percentage)).length : ℚ)
      set ps := gs.map (fun x : GradeResult => x.percentage) with hps
      set m := ps.foldl min g.percentage with hm
      have hbound : ∀ x ∈ g.percentage :: ps, m ≤ x := by
        intro x hx
        rcases List.mem_cons.mp hx with rfl | hx2
        · exact foldl_min_le ps g.percentage
        · exact foldl_min_le_mem ps g.percentage x hx2
      have hsum := List.card_nsmul_le_sum (g.percentage :: ps) m hbound
      rw [nsmul_eq_mul] at hsum
      have hpos : (0 : ℚ) < ((g.percentage :: ps).length : ℚ) := by
        exact_mod_cast Nat.succ_pos ps.length
      rw [le_div_iff hpos, mul_comm]
      exact hsum
    · show (g.percentage :: gs.map (fun x : GradeResult => x.percentage)).sum /
          ((g.percentage :: gs.map (fun x : GradeResult => x.percentage)).length : ℚ) ≤
        (gs.map (fun x : GradeResult => x.percentage)).foldl max g.percentage
      set ps := gs.map (fun x : GradeResult => x.percentage) with hps
      set M := ps.foldl max g.percentage with hM
      have hbound : ∀ x ∈ g.percentage :: ps, x ≤ M := by
        intro x hx
        rcases List.mem_cons.mp hx with rfl | hx2
        · exact le_foldl_max ps g.percentage
        · exact mem_le_foldl_max ps g.percentage x hx2
      have hsum := List.sum_le_card_nsmul (g.percentage :: ps) M hbound
      rw [nsmul_eq_mul] at hsum
      have hpos : (0 : ℚ) < ((g.percentage :: ps).length : ℚ) := by
        exact_mod_cast Nat.succ_pos ps.length
      rw [div_le_iff hpos, mul_comm]
      exact hsum
    · show ((["A", "B", "C", "D", "F"].map
          (fun gr => (gr, ((g :: gs).map (fun x : GradeResult => x.letter_grade)).count gr))).map
            Prod.snd).sum = (g :: gs).length
      set lgs := (g :: gs).map (fun x : GradeResult => x.letter_grade) with hlgs
      have hmem : ∀ a ∈ lgs, a ∈ ["A", "B", "C", "D", "F"] := by
        intro a ha
        rw [hlgs] at ha
        obtain ⟨x, hx, rfl⟩ := List.mem_map.mp ha
        exact hg x hx
      have hcount := count_grades_sum lgs hmem
      have hlen : lgs.length = (g :: gs).length := by
        rw [hlgs, List.length_map]
      rw [← hlen, ← hcount]
      simp [List.map_map]
      ring

/-- Witness for C4 on a two-student class. -/
theorem generate_summary_stats_sound_witness :
    ([({ student_name := "x", percentage := 50, letter_grade := "F",
          correct_count := 2 } : GradeResult),
      { student_name := "y", percentage := 100, letter_grade := "A",
          correct_count := 4 }] ≠ ([] : List GradeResult)) ∧
    (∃ stats,
      generate_summary_stats
        [{ student_name := "x", percentage := 50, letter_grade := "F",
            correct_count := 2 },
         { student_name := "y", percentage := 100, letter_grade := "A",
            correct_count := 4 }] = some stats ∧
      stats.lowest_score ≤ stats.class_average ∧
      stats.class_average ≤ stats.highest_score ∧
      (stats.grade_distribution.map Prod.snd).sum =
        ([({ student_name := "x", percentage := 50, letter_grade := "F",
              correct_count := 2 } : GradeResult),
          { student_name := "y", percentage := 100, letter_grade := "A",
              correct_count := 4 }] : List GradeResult).length) :=
  ⟨by decide,
   generate_summary_stats_sound _ (by decide) (by decide)⟩

lemma append_ne_of_first_char (s1 s2 r : String) (c d : Char) (t1 t2 : List Char)
    (h1 : s1.data = c :: t1) (h2 : s2.data = d :: t2) (hcd : c ≠ d) :
    s1 ++ r ≠ s2 := by
  intro he
  have hd := congrArg String.data he
  rw [String.data_append, h1, h2, List.cons_append] at hd
  injection hd with hc _
  exact hcd hc

lemma processStudents_all_invalid (ak : List String) (tq : Nat) (l : List Student)
    (h : ∀ s ∈ l, (validate_student_data s tq).1 = false) :
    (processStudents ak tq l).2 = [] ∧
    ∀ line ∈ (processStudents ak tq l).1, ∃ r, line = warnHead ++ r := by
  induction l with
  | nil => exact ⟨rfl, by intro line hl; cases hl⟩
  | cons s rest ih =>
    have hs := h s (List.mem_cons_self s rest)
    obtain ⟨ih1, ih2⟩ := ih (fun x hx => h x (List.mem_cons_of_mem s hx))
    have hps : processStudent ak tq s =
        ([warnHead ++ (s.student_name.getD "Unknown" ++
          (": " ++ (validate_student_data s tq).2))], none) := by
      simp [processStudent, hs]
    constructor
    · show (processStudent ak tq s).2.toList ++ (processStudents ak tq rest).2 = []
      rw [hps, ih1]
      rfl
    · intro line hl
      rw [show (processStudents ak tq (s :: rest)).1 =
            (processStudent ak tq s).1 ++ (processStudents ak tq rest).1 from rfl,
          hps] at hl
      rcases List.mem_append.mp hl with hl1 | hl2
      · rcases List.mem_singleton.mp hl1 with rfl
        exact ⟨_, rfl⟩
      · exact ih2 line hl2

/-- C7: when no record of the processed roster passes validation, the report
contains the no-valid-data notice, contains no summary block, and the summary
statistics are never computed on the empty collection (the branch that would
divide by zero is not reached, so the run still succeeds). -/
theorem no_valid_data_report (data : ExamData) (limit : Option Nat)
    (h : ∀ s ∈ studentsToProcess data limit,
      (validate_student_data s data.exam_info.total_questions).1 = false) :
    noValidDataLine ∈ report_lines data limit ∧
    summaryHeaderLine ∉ report_lines data limit ∧
    generate_summary_stats
      (processStudents data.answer_key data.exam_info.total_questions
        (studentsToProcess data limit)).2 = none := by
  obtain ⟨h2, hlines⟩ := processStudents_all_invalid data.answer_key
    data.exam_info.total_questions (studentsToProcess data limit) h
  have hnone : generate_summary_stats
      (processStudents data.answer_key data.exam_info.total_questions
        (studentsToProcess data limit)).2 = none := by
    rw [h2]
    rfl
  have hrep : report_lines data limit =
      headerLines data.exam_info ++
        (processStudents data.answer_key data.exam_info.total_questions
          (studentsToProcess data limit)).1 ++
        (match generate_summary_stats
            (processStudents data.answer_key data.exam_info.total_questions
              (studentsToProcess data limit)).2 with
         | some stats =>
            summaryLines (processStudents data.answer_key
              data.exam_info.total_questions (studentsToProcess data limit)).2.length stats
         | none => [noValidDataLine]) := rfl
  rw [hnone] at hrep
  have hrep2 : report_lines data limit =
      headerLines data.exam_info ++
        (processStudents data.answer_key data.exam_info.total_questions
          (studentsToProcess data limit)).1 ++
        [noValidDataLine] := hrep
  refine ⟨?_, ?_, hnone⟩
  · rw [hrep2]
    simp
  · rw [hrep2]
    intro hmem
    rcases List.mem_append.mp hmem with hmem | hmem
    · rcases List.mem_append.mp hmem with hh | hh
      · simp only [headerLines, List.mem_cons, List.not_mem_nil, or_false] at hh
        rcases hh with hh | hh | hh | hh | hh | hh
        · exact (by decide : summaryHeaderLine ≠ repChar 60 '=') hh
        · exact append_ne_of_first_char "EXAM RESULTS: " summaryHeaderLine
            data.exam_info.exam_name 'E' '\n' "XAM RESULTS: ".data
            "CLASS SUMMARY STATISTICS".data rfl rfl (by decide) hh.symm
        · exact append_ne_of_first_char "Date: " summaryHeaderLine
            data.exam_info.date 'D' '\n' "ate: ".data
            "CLASS SUMMARY STATISTICS".data rfl rfl (by decide) hh.symm
        · exact append_ne_of_first_char "Total Questions: " summaryHeaderLine
            (toString data.exam_info.total_questions) 'T' '\n' "otal Questions: ".data
            "CLASS SUMMARY STATISTICS".data rfl rfl (by decide) hh.symm
        · exact (by decide : summaryHeaderLine ≠ repChar 60 '=') hh
        · exact (by decide : summaryHeaderLine ≠ "") hh
      · obtain ⟨r, hr⟩ := hlines _ hh
        exact append_ne_of_first_char warnHead summaryHeaderLine r
          'â' '\n' "š ï¸  ERROR processing ".data
          "CLASS SUMMARY STATISTICS".data rfl rfl (by decide) hr.symm
    · rcases List.mem_singleton.mp hmem with hh
      exact (by decide : summaryHeaderLine ≠ noValidDataLine) hh

/-- Input used by the C7 witness: one student whose record has no `answers`
field, so nothing passes validation. -/
def sampleInvalidData : ExamData :=
  { exam_info := { exam_name := "Midterm", date := "2024-01-01", total_questions := 2 }
    answer_key := ["A", "B"]
    students := [{ student_id := some "S1", student_name := some "Bob", answers := none }] }

/-- Witness for C7 on `sampleInvalidData`. -/
theorem no_valid_data_report_witness :
    noValidDataLine ∈ report_lines sampleInvalidData none ∧
    summaryHeaderLine ∉ report_lines sampleInvalidData none ∧
    generate_summary_stats
      (processStudents sampleInvalidData.answer_key
        sampleInvalidData.exam_info.total_questions
        (studentsToProcess sampleInvalidData none)).2 = none :=
  no_valid_data_report sampleInvalidData none (by decide)
